import Mathlib

/-!
Verification of the snapshot-based deduplication core of gluestick
(`src/gluestick/etl_utils.py`): `get_row_hash`, `snapshot_records` and
`drop_redundant`.  Dataframes are embedded as lists of rows, a row being an
association list from column name to scalar value in column order; the
snapshot directory is embedded as an association list from file path to the
stored table.
-/

set_option maxRecDepth 8000

namespace Gluestick

/-- Scalar cell values of a dataframe as used by the ETL utilities: strings,
integers, booleans and the missing value (NaN). -/
inductive Value where
  | str : String → Value
  | int : Int → Value
  | bool : Bool → Value
  | null : Value
deriving DecidableEq, Repr

/-- Python `str()` / pandas `astype(str)` coercion of a cell value; NaN
renders as "nan" under `astype(str)`. -/
def Value.toStr : Value → String
  | .str s => s
  | .int n => toString n
  | .bool b => if b then "True" else "False"
  | .null => "nan"

/-- A dataframe row: column names paired with values, in column order. -/
abbrev Row := List (String × Value)

/-- Value of column `c` in a row (`row[c]`). -/
def Row.get (r : Row) (c : String) : Option Value :=
  (r.find? (fun kv => kv.1 == c)).map (fun kv => kv.2)

/-- Column projection `df[cs]`: keep the named columns, in the order of `cs`.
All claims use frames that carry the projected columns, so the pandas
`KeyError` on a missing column is not modelled: a missing column is skipped. -/
def Row.proj (r : Row) (cs : List String) : Row :=
  cs.filterMap (fun c => (Row.get r c).map (fun v => (c, v)))

/-- Column assignment `df[c] = v`: replace the column in place if it exists,
otherwise append it as the last column (pandas semantics). -/
def Row.setCol (r : Row) (c : String) (v : Value) : Row :=
  if r.any (fun kv => kv.1 == c) then
    r.map (fun kv => if kv.1 == c then (c, v) else kv)
  else r ++ [(c, v)]

/-- `df.drop(c, axis=1)`: remove the named column. -/
def Row.dropCol (r : Row) (c : String) : Row :=
  r.filter (fun kv => !(kv.1 == c))

/-- The snapshot directory, embedded as an association list from file path to
the table stored in that file.  CSV serialization is modelled as lossless,
which spec section 6 requires of the snapshot format ("must round-trip
string/number/null values losslessly"). -/
abbrev FS := List (String × List Row)

/-- Reading the file at path `p`: `none` when no such file exists. -/
def FS.lookup (fs : FS) (p : String) : Option (List Row) :=
  (fs.find? (fun e => e.1 == p)).map (fun e => e.2)

/-- `to_csv(p)`: overwrite the file at path `p` with table `t`, creating it
when absent. -/
def FS.store (fs : FS) (p : String) (t : List Row) : FS :=
  if fs.any (fun e => e.1 == p) then
    fs.map (fun e => if e.1 == p then (p, t) else e)
  else fs ++ [(p, t)]

/-- pandas `drop_duplicates(subset, keep="first")` over an arbitrary carrier
`α` with a key function: keep an element iff its key has not occurred on an
earlier element; `seen` accumulates the keys of the elements already kept. -/
def dedupKeepAux (key : α → Row) (seen : List Row) : List α → List α
  | [] => []
  | x :: xs =>
    if key x ∈ seen then dedupKeepAux key seen xs
    else x :: dedupKeepAux key (key x :: seen) xs

/-- pandas `drop_duplicates(subset, keep="first")`: keep the first occurrence
of every key, preserving the order of the kept elements. -/
def dedupKeep (key : α → Row) (l : List α) : List α :=
  dedupKeepAux key [] l

/-- pandas `drop_duplicates(subset, keep="last")`: keep an element iff no
later element carries the same key; the order of the kept elements is the
original order. -/
def dedupKeepLast (key : α → Row) : List α → List α
  | [] => []
  | x :: xs =>
    if xs.any (fun y => decide (key y = key x)) then dedupKeepLast key xs
    else x :: dedupKeepLast key xs

/-- The path f"{snapshot_dir}/{stream}.snapshot.csv" used by `read_snapshots`
and `snapshot_records` (lines 157, 197, 203). -/
def snapshotPath (snapshotDir stream : String) : String :=
  snapshotDir ++ "/" ++ stream ++ ".snapshot.csv"

/-- The path f"{output_dir}/{name}.hash.snapshot.csv" checked and read by
`drop_redundant` (lines 267, 270). -/
def hashSnapshotPath (outputDir name : String) : String :=
  outputDir ++ "/" ++ name ++ ".hash.snapshot.csv"

/-- `drop_redundant` passes the stream name f"{name}.hash" to
`snapshot_records`, which therefore writes exactly the file that
`drop_redundant` checks at line 267. -/
theorem snapshotPath_hash (d n : String) :
    snapshotPath d (n ++ ".hash") = hashSnapshotPath d n := by
  unfold snapshotPath hashSnapshotPath
  have h : (".hash" : String) ++ ".snapshot.csv" = ".hash.snapshot.csv" := by decide
  rw [String.append_assoc (d ++ "/") (n ++ ".hash") ".snapshot.csv",
    String.append_assoc n ".hash" ".snapshot.csv", h,
    ← String.append_assoc (d ++ "/") n ".hash.snapshot.csv"]

/-- `get_row_hash` (lines 213-228): the row's values are coerced with
`astype(str)`, joined in column order with no delimiter, and fed to a digest.
`hashlib.md5(...).hexdigest()` is external library code, so the digest is a
parameter `digest : String → String`; everything gluestick itself does to the
row is the coercion and concatenation. -/
def get_row_hash (digest : String → String) (row : Row) : String :=
  digest (String.join (row.map (fun kv => kv.2.toStr)))

/-- `snapshot_records` (lines 164-210), for a list-valued primary key.
`stream_data = None` is `none`; reading and writing go through `fs`.
Control flow follows the source: when both the snapshot file and the stream
data exist, the concatenation existing-then-new is deduplicated by `pk`
keeping the last occurrence and written back; with `just_new` set, control
falls through to the final `return stream_data`. -/
def snapshot_records (streamData : Option (List Row)) (stream snapshotDir : String)
    (pk : List String) (justNew : Bool) (fs : FS) : Option (List Row) × FS :=
  match streamData, FS.lookup fs (snapshotPath snapshotDir stream) with
  | some sd, some sn =>
    let merged := dedupKeepLast (fun r => Row.proj r pk) (sn ++ sd)
    let fs1 := FS.store fs (snapshotPath snapshotDir stream) merged
    if !justNew then (some merged, fs1) else (some sd, fs1)
  | some sd, none => (some sd, FS.store fs (snapshotPath snapshotDir stream) sd)
  | none, sn => if justNew then (none, fs) else (sn, fs)

/-- A dataframe together with its integer index: pandas index label paired
with the row.  A frame built fresh from input data carries the default
RangeIndex 0,1,2,...; `drop_duplicates` and boolean filtering preserve
labels, while `merge` and `read_csv` produce a fresh RangeIndex. -/
abbrev Frame := List (Nat × Row)

/-- The `pk` argument of `drop_redundant`, which the source accepts both as
a plain string and as a list of column names. -/
inductive PkArg where
  | ofStr : String → PkArg
  | ofList : List String → PkArg
deriving DecidableEq

/-- Python truthiness of the `pk` argument at line 261 (`if pk:`): a
non-empty string or a non-empty list. -/
def PkArg.truthy : PkArg → Bool
  | .ofStr s => !s.isEmpty
  | .ofList l => !l.isEmpty

/-- Line 268, `pk = [pk] if not isinstance(pk, list) else pk`.  The same
column list drives `drop_duplicates(subset=pk)` at line 263, where pandas
treats a string subset as that single column. -/
def PkArg.norm : PkArg → List String
  | .ofStr s => [s]
  | .ofList l => l

/-- Errors the source can raise on the paths the claims exercise:
`updated_pk` referenced before assignment at line 284, `pk + ["hash"]` on a
string `pk` at line 286, and assigning a multi-column frame to the single
`_updated` column at line 277. -/
inductive PyErr where
  | unboundLocal : PyErr
  | typeError : PyErr
  | valueError : PyErr
deriving DecidableEq, Repr

/-- Lines 275-277: `updated_pk = df[pk]` followed by
`updated_pk["_updated"] = updated_pk.isin(hash_df[pk])`.  `DataFrame.isin`
with a dataframe argument matches cells on index label and column label, so
a cell is true exactly when `hash_df` holds an equal value at the same label
and column.  Assigning the resulting one-column boolean frame to the single
column `_updated` takes that column; for a multi-column `pk` pandas raises a
ValueError (cannot set a multi-column frame to a single column). -/
def updatedPkFrame (df hashDf : Frame) (pkL : List String) : Except PyErr Frame :=
  match pkL with
  | [c] => .ok (df.map (fun p =>
      (p.1, Row.proj p.2 [c] ++
        [("_updated", Value.bool (hashDf.any (fun q =>
          q.1 == p.1 && Row.get q.2 c == Row.get p.2 c)))])))
  | _ => .error .valueError

/-- Lines 279-283: the left merge of `df` with `hash_df[pk + ["hash"]]` on
`pk + ["hash"]` with `indicator=True`, keeping the rows marked `left_only`
and then dropping the `_merge` column.  The right table carries exactly the
join columns, so the merge adds no value column: the surviving rows are
precisely the rows of `df` whose key projection matches no row of `hash_df`,
in their original order.  No later line reads the index, so the frame keeps
its labels here. -/
def filterLeftOnly (keys : List String) (df hashDf : Frame) : Frame :=
  df.filter (fun p =>
    !(hashDf.any (fun q => decide (Row.proj q.2 keys = Row.proj p.2 keys))))

/-- Line 284: `df.merge(updated_pk, on=pk, how="left")`.  Every row of `df`
is paired with each matching row of the right table `b` (whose columns are
`bcols`); the columns of `b` outside the join columns are appended, with NaN
when no match exists; the output carries a fresh RangeIndex. -/
def mergeLeftFrame (onCols bcols : List String) (df b : Frame) : Frame :=
  ((df.map Prod.snd).flatMap (fun r =>
    let extra := bcols.filter (fun c => !(onCols.contains c))
    let ms := b.filter (fun q => decide (Row.proj q.2 onCols = Row.proj r onCols))
    if ms.isEmpty then [r ++ extra.map (fun c => (c, Value.null))]
    else ms.map (fun q => r ++ Row.proj q.2 extra))).enum

/-- A python variable holding a dataframe: either an alias of the caller's
frame (the state of the parameter before any copy) or a frame owned by the
call (the result of `.copy()`, `drop_duplicates`, `merge` or column
selection, each of which returns a new object). -/
inductive PyObj where
  | callerRef : PyObj
  | owned : Frame → PyObj

/-- Contents of the object: the caller's frame for an alias, the held frame
otherwise. -/
def PyObj.deref (h : Frame) : PyObj → Frame
  | .callerRef => h
  | .owned v => v

/-- `df.copy()` (line 259): a fresh object with the same contents. -/
def PyObj.copy (h : Frame) (o : PyObj) : PyObj := .owned (o.deref h)

/-- In-place column assignment `obj[col] = ...`: mutates the frame the
object refers to, so an alias of the caller's frame writes through to the
caller's frame. -/
def pySetCol (h : Frame) (o : PyObj) (f : Frame → Frame) : Frame × PyObj :=
  match o with
  | .callerRef => (f h, .callerRef)
  | .owned v => (h, .owned (f v))

/-- `drop_redundant` (lines 231-288) with the caller's frame made explicit:
`h0` is the contents of the caller's dataframe object (carrying its default
RangeIndex) and the first component of the result is the contents of that
object when the call returns or raises.  The local variable `df` starts as
an alias of the caller's object and is rebound to an owned copy at line 259;
the digest inside `get_row_hash` is the `digest` parameter. -/
def drop_redundant_heap (digest : String → String) (h0 : Frame)
    (name outputDir : String) (pk : PkArg) (updatedFlag : Bool) (fs : FS) :
    Frame × (Except PyErr (List Row) × FS) :=
  -- the parameter `df` binds the caller's object
  let df : PyObj := .callerRef
  -- line 259: df = df.copy()
  let df := df.copy h0
  -- lines 261-263: drop_duplicates returns a new frame, labels preserved
  let df : PyObj := .owned (if pk.truthy
    then dedupKeep (fun p => Row.proj p.2 pk.norm) (df.deref h0)
    else df.deref h0)
  -- line 265: df["hash"] = df.apply(get_row_hash, axis=1), in place
  let s1 := pySetCol h0 df (fun fr =>
    fr.map (fun p => (p.1, Row.setCol p.2 "hash" (.str (get_row_hash digest p.2)))))
  let h1 := s1.1
  let df := s1.2
  -- line 267: does the hash snapshot file exist?
  match FS.lookup fs (hashSnapshotPath outputDir name) with
  | some snap =>
    -- line 268: pk = [pk] if not isinstance(pk, list) else pk
    let pkL := pk.norm
    -- line 270: read_csv gives the stored table a fresh RangeIndex
    let hashDf : Frame := snap.enum
    -- lines 272-273
    let hashDf := if !pkL.isEmpty
      then dedupKeep (fun p => Row.proj p.2 pkL) hashDf else hashDf
    -- lines 275-277
    if updatedFlag && !pkL.isEmpty then
      match updatedPkFrame (df.deref h1) hashDf pkL with
      | .error e => (h1, (.error e, fs))
      | .ok upk =>
        -- lines 279-283
        let df : PyObj := .owned (filterLeftOnly (pkL ++ ["hash"]) (df.deref h1) hashDf)
        -- line 284
        let df : PyObj := .owned (mergeLeftFrame pkL (pkL ++ ["_updated"]) (df.deref h1) upk)
        -- line 286
        let fs1 := (snapshot_records
          (some ((df.deref h1).map (fun p => Row.proj p.2 (pkL ++ ["hash"]))))
          (name ++ ".hash") outputDir pkL false fs).2
        -- lines 287-288: df.drop("hash", axis=1) returns a new frame
        (h1, (.ok ((df.deref h1).map (fun p => Row.dropCol p.2 "hash")), fs1))
    else
      -- line 284 reads updated_pk, which was never assigned when
      -- updated_flag is false: UnboundLocalError, nothing written
      (h1, (.error .unboundLocal, fs))
  | none =>
    match pk with
    | .ofStr _ =>
      -- line 286: pk + ["hash"] with a string pk raises TypeError
      (h1, (.error .typeError, fs))
    | .ofList pkL =>
      -- line 286
      let fs1 := (snapshot_records
        (some ((df.deref h1).map (fun p => Row.proj p.2 (pkL ++ ["hash"]))))
        (name ++ ".hash") outputDir pkL false fs).2
      -- lines 287-288
      (h1, (.ok ((df.deref h1).map (fun p => Row.dropCol p.2 "hash")), fs1))

/-- `drop_redundant` as a function from the caller's rows and the snapshot
directory to the result and the updated directory: the caller's frame gets
the default RangeIndex and the call is evaluated on it. -/
def drop_redundant (digest : String → String) (df0 : List Row)
    (name outputDir : String) (pk : PkArg) (updatedFlag : Bool) (fs : FS) :
    Except PyErr (List Row) × FS :=
  (drop_redundant_heap digest df0.enum name outputDir pk updatedFlag fs).2

/-- Lines 261-263 of `drop_redundant` on the rows of the batch: when `pk` is
truthy, the batch-internal duplicates by `pk` are dropped, keeping the first
occurrence. -/
def batchDedup (pk : List String) (df : List Row) : List Row :=
  if pk.isEmpty then df else dedupKeep (fun r => Row.proj r pk) df

deriving instance DecidableEq for Except

theorem mem_of_mem_dedupKeepAux {key : α → Row} {seen : List Row} {l : List α}
    {x : α} (h : x ∈ dedupKeepAux key seen l) : x ∈ l := by
  induction l generalizing seen with
  | nil => simp [dedupKeepAux] at h
  | cons y ys ih =>
    by_cases hc : key y ∈ seen
    · simp only [dedupKeepAux, if_pos hc] at h
      exact List.mem_cons_of_mem _ (ih h)
    · simp only [dedupKeepAux, if_neg hc, List.mem_cons] at h
      rcases h with rfl | h
      · exact List.mem_cons_self _ _
      · exact List.mem_cons_of_mem _ (ih h)

theorem countP_dedupKeepAux_of_mem {key : α → Row} {v : Row} {seen : List Row}
    (hv : v ∈ seen) (l : List α) :
    (dedupKeepAux key seen l).countP (fun x => decide (key x = v)) = 0 := by
  induction l generalizing seen with
  | nil => simp [dedupKeepAux]
  | cons y ys ih =>
    by_cases hc : key y ∈ seen
    · simp only [dedupKeepAux, if_pos hc]
      exact ih hv
    · have hne : ¬ key y = v := fun he => hc (he ▸ hv)
      simp only [dedupKeepAux, if_neg hc, List.countP_cons, hne, decide_False]
      simp [ih (List.mem_cons_of_mem _ hv)]

theorem countP_dedupKeepAux_le_one (key : α → Row) (v : Row) (seen : List Row)
    (l : List α) :
    (dedupKeepAux key seen l).countP (fun x => decide (key x = v)) ≤ 1 := by
  induction l generalizing seen with
  | nil => simp [dedupKeepAux]
  | cons y ys ih =>
    by_cases hc : key y ∈ seen
    · simpa [dedupKeepAux, if_pos hc] using ih seen
    · simp only [dedupKeepAux, if_neg hc, List.countP_cons]
      by_cases hy : key y = v
      · have h0 : (dedupKeepAux key (key y :: seen) ys).countP
            (fun x => decide (key x = v)) = 0 :=
          countP_dedupKeepAux_of_mem (hy ▸ List.mem_cons_self _ _) ys
        rw [h0]
        split <;> omega
      · simp only [hy, decide_False]
        simpa using ih (key y :: seen)

theorem find?_of_mem_dedupKeepAux {key : α → Row} {seen : List Row} {l : List α}
    {x : α} (h : x ∈ dedupKeepAux key seen l) :
    key x ∉ seen ∧ l.find? (fun y => decide (key y = key x)) = some x := by
  induction l generalizing seen with
  | nil => simp [dedupKeepAux] at h
  | cons y ys ih =>
    by_cases hc : key y ∈ seen
    · simp only [dedupKeepAux, if_pos hc] at h
      obtain ⟨hns, hf⟩ := ih h
      have hne : ¬ (decide (key y = key x) = true) := by
        simp only [decide_eq_true_eq]
        intro he
        exact hns (he ▸ hc)
      refine ⟨hns, ?_⟩
      rw [List.find?_cons_of_neg (p := fun z => decide (key z = key x)) _ hne, hf]
    · simp only [dedupKeepAux, if_neg hc, List.mem_cons] at h
      rcases h with rfl | h
      · refine ⟨hc, ?_⟩
        rw [List.find?_cons_of_pos]
        simp
      · obtain ⟨hns, hf⟩ := ih h
        simp only [List.mem_cons, not_or] at hns
        have hne : ¬ (decide (key y = key x) = true) := by
          simp only [decide_eq_true_eq]
          intro he
          exact hns.1 (he ▸ rfl)
        exact ⟨hns.2,
          by rw [List.find?_cons_of_neg (p := fun z => decide (key z = key x)) _ hne, hf]⟩

theorem mem_of_mem_dedupKeepLast {key : α → Row} {l : List α} {x : α}
    (h : x ∈ dedupKeepLast key l) : x ∈ l := by
  induction l with
  | nil => simp [dedupKeepLast] at h
  | cons y ys ih =>
    by_cases hc : ys.any (fun z => decide (key z = key y)) = true
    · simp only [dedupKeepLast, if_pos hc] at h
      exact List.mem_cons_of_mem _ (ih h)
    · simp only [dedupKeepLast, if_neg hc, List.mem_cons] at h
      rcases h with rfl | h
      · exact List.mem_cons_self _ _
      · exact List.mem_cons_of_mem _ (ih h)

theorem countP_dedupKeepLast (key : α → Row) (v : Row) (l : List α) :
    (dedupKeepLast key l).countP (fun x => decide (key x = v))
      = if l.any (fun x => decide (key x = v)) then 1 else 0 := by
  induction l with
  | nil => simp [dedupKeepLast]
  | cons y ys ih =>
    by_cases hc : ys.any (fun z => decide (key z = key y)) = true
    · simp only [dedupKeepLast, if_pos hc, ih, List.any_cons]
      by_cases hy : key y = v
      · have : ys.any (fun x => decide (key x = v)) = true := by
          rw [List.any_eq_true] at hc ⊢
          obtain ⟨z, hz, hzk⟩ := hc
          exact ⟨z, hz, by simp only [decide_eq_true_eq] at hzk ⊢; rw [hzk, hy]⟩
        simp [this, hy]
      · simp [hy]
    · simp only [dedupKeepLast, if_neg hc, List.countP_cons, ih, List.any_cons]
      by_cases hy : key y = v
      · have h0 : ys.any (fun x => decide (key x = v)) = false := by
          rw [List.any_eq_false]
          intro z hz
          simp only [decide_eq_true_eq]
          intro hzk
          rw [List.any_eq_true] at hc
          exact hc ⟨z, hz, by simp [hzk, hy]⟩
        simp [h0, hy]
      · simp [hy]

theorem mem_dedupKeepLast_append {key : α → Row} {v : Row} {a b : List α}
    (hb : ∃ y ∈ b, key y = v) {x : α}
    (hx : x ∈ dedupKeepLast key (a ++ b)) (hxv : key x = v) : x ∈ b := by
  induction a with
  | nil => simpa using mem_of_mem_dedupKeepLast hx
  | cons z a' ih =>
    rw [List.cons_append] at hx
    by_cases hc : (a' ++ b).any (fun y => decide (key y = key z)) = true
    · simp only [dedupKeepLast, if_pos hc] at hx
      exact ih hx
    · simp only [dedupKeepLast, if_neg hc, List.mem_cons] at hx
      rcases hx with rfl | hx
      · exfalso
        apply hc
        rw [List.any_eq_true]
        obtain ⟨y, hy, hyk⟩ := hb
        exact ⟨y, List.mem_append_right _ hy, by simp [hyk, hxv]⟩
      · exact ih hx

theorem snapshot_records_no_snapshot (sd : List Row) (stream dir : String)
    (pk : List String) (justNew : Bool) (fs : FS)
    (h : FS.lookup fs (snapshotPath dir stream) = none) :
    snapshot_records (some sd) stream dir pk justNew fs
      = (some sd, FS.store fs (snapshotPath dir stream) sd) := by
  unfold snapshot_records
  rw [h]

theorem map_dedupKeepAux (f : α → β) (key : β → Row) (seen : List Row)
    (l : List α) :
    (dedupKeepAux (fun x => key (f x)) seen l).map f
      = dedupKeepAux key seen (l.map f) := by
  induction l generalizing seen with
  | nil => simp [dedupKeepAux]
  | cons y ys ih =>
    by_cases hc : key (f y) ∈ seen
    · simp only [dedupKeepAux, List.map_cons, if_pos hc, ih]
    · simp only [dedupKeepAux, List.map_cons, if_neg hc, List.map, ih]

/-- C5: `get_row_hash` is a deterministic pure function of the coerced column
values in column order: any two rows whose values coerce to identical string
sequences in the same column order hash identically, whatever the digest and
wherever the rows came from. -/
theorem get_row_hash_deterministic (digest : String → String) (r1 r2 : Row)
    (h : r1.map (fun kv => kv.2.toStr) = r2.map (fun kv => kv.2.toStr)) :
    get_row_hash digest r1 = get_row_hash digest r2 := by
  unfold get_row_hash
  rw [h]

/-- Witness for C5: the integer 1 and the string "1" coerce to the same
string, so rows holding them hash identically. -/
theorem get_row_hash_deterministic_witness :
    ([("a", Value.int 1)] : Row).map (fun kv => kv.2.toStr)
        = ([("b", Value.str "1")] : Row).map (fun kv => kv.2.toStr)
    ∧ get_row_hash (fun s => s) [("a", Value.int 1)]
        = get_row_hash (fun s => s) [("b", Value.str "1")] :=
  ⟨by decide, get_row_hash_deterministic (fun s => s)
    [("a", Value.int 1)] [("b", Value.str "1")] (by decide)⟩

/-- C7: when `stream_data` is absent (None), `snapshot_records` performs no
merge and no write: with a snapshot present it returns that snapshot, or
nothing when `just_new` is set; with no snapshot it returns nothing; the
snapshot directory is unchanged in every case. -/
theorem snapshot_records_none_stream_data (stream snapshotDir : String)
    (pk : List String) (justNew : Bool) (fs : FS) :
    snapshot_records none stream snapshotDir pk justNew fs
      = (if justNew then none
         else FS.lookup fs (snapshotPath snapshotDir stream), fs) := by
  unfold snapshot_records
  cases h : FS.lookup fs (snapshotPath snapshotDir stream) <;>
    cases justNew <;> simp [h]

/-- C3: with an existing snapshot and data to merge, `snapshot_records`
concatenates existing-then-new and deduplicates by pk keeping the last
occurrence, returns the merged table and rewrites the snapshot file to it;
for every pk value present in both tables the merged table holds exactly one
row with that pk value, and that row comes from the incoming data. -/
theorem snapshot_records_merge_new_wins (sn sd : List Row)
    (stream snapshotDir : String) (pk : List String) (fs : FS)
    (hs : FS.lookup fs (snapshotPath snapshotDir stream) = some sn) :
    snapshot_records (some sd) stream snapshotDir pk false fs
      = (some (dedupKeepLast (fun r => Row.proj r pk) (sn ++ sd)),
         FS.store fs (snapshotPath snapshotDir stream)
           (dedupKeepLast (fun r => Row.proj r pk) (sn ++ sd)))
    ∧ ∀ v : Row,
        (∃ r ∈ sn, Row.proj r pk = v) → (∃ r ∈ sd, Row.proj r pk = v) →
        ((dedupKeepLast (fun r => Row.proj r pk) (sn ++ sd)).countP
            (fun r => decide (Row.proj r pk = v)) = 1
         ∧ ∀ r ∈ dedupKeepLast (fun r => Row.proj r pk) (sn ++ sd),
             Row.proj r pk = v → r ∈ sd) := by
  constructor
  · unfold snapshot_records
    rw [hs]
    rfl
  · intro v _ hsd
    have hany : (sn ++ sd).any (fun r => decide (Row.proj r pk = v)) = true := by
      rw [List.any_eq_true]
      obtain ⟨r, hr, hrv⟩ := hsd
      exact ⟨r, List.mem_append_right _ hr, by simp [hrv]⟩
    constructor
    · rw [countP_dedupKeepLast, if_pos hany]
    · intro r hr hrv
      obtain ⟨y, hy, hyv⟩ := hsd
      exact mem_dedupKeepLast_append ⟨y, hy, hyv⟩ hr hrv

/-- Snapshot table of the C3 witness. -/
def c3Existing : List Row := [[("pk", Value.int 1), ("hash", Value.str "ha")]]

/-- Incoming table of the C3 witness. -/
def c3Incoming : List Row := [[("pk", Value.int 1), ("hash", Value.str "hb")]]

/-- Snapshot directory of the C3 witness. -/
def c3Fs : FS := [("d/s.snapshot.csv", c3Existing)]

/-- Witness for C3 at the spec's own micro-example: merging existing
{pk [is] 1, hash ha} with incoming {pk [is] 1, hash hb} yields exactly the
incoming row. -/
theorem snapshot_records_merge_new_wins_witness :
    FS.lookup c3Fs (snapshotPath "d" "s") = some c3Existing
    ∧ (snapshot_records (some c3Incoming) "s" "d" ["pk"] false c3Fs
        = (some (dedupKeepLast (fun r => Row.proj r ["pk"]) (c3Existing ++ c3Incoming)),
           FS.store c3Fs (snapshotPath "d" "s")
             (dedupKeepLast (fun r => Row.proj r ["pk"]) (c3Existing ++ c3Incoming)))
       ∧ ∀ v : Row,
          (∃ r ∈ c3Existing, Row.proj r ["pk"] = v) →
          (∃ r ∈ c3Incoming, Row.proj r ["pk"] = v) →
          ((dedupKeepLast (fun r => Row.proj r ["pk"]) (c3Existing ++ c3Incoming)).countP
              (fun r => decide (Row.proj r ["pk"] = v)) = 1
           ∧ ∀ r ∈ dedupKeepLast (fun r => Row.proj r ["pk"]) (c3Existing ++ c3Incoming),
               Row.proj r ["pk"] = v → r ∈ c3Incoming)) :=
  ⟨by decide, snapshot_records_merge_new_wins c3Existing c3Incoming "s" "d" ["pk"] c3Fs
    (by decide)⟩

/-- C6: with a non-empty pk, the batch-internal dedup stage of
`drop_redundant` (lines 261-263, `batchDedup` on the batch rows) leaves at
most one row per pk value, and every surviving row is the first row of the
batch carrying its pk value. -/
theorem drop_redundant_batch_dedup_first (pkL : List String) (df0 : List Row)
    (hpk : pkL ≠ []) (v : Row) :
    (batchDedup pkL df0).countP (fun r => decide (Row.proj r pkL = v)) ≤ 1
    ∧ ∀ r ∈ batchDedup pkL df0,
        df0.find? (fun s => decide (Row.proj s pkL = Row.proj r pkL)) = some r := by
  have hne : pkL.isEmpty = false := by
    cases pkL with
    | nil => exact absurd rfl hpk
    | cons a l => rfl
  unfold batchDedup dedupKeep
  simp only [hne, Bool.false_eq_true, if_false]
  exact ⟨countP_dedupKeepAux_le_one _ _ _ _,
    fun r hr => (find?_of_mem_dedupKeepAux hr).2⟩

/-- Witness for C6: a batch with two rows sharing pk 5 keeps only the first
of them. -/
theorem drop_redundant_batch_dedup_first_witness :
    (["id"] : List String) ≠ []
    ∧ ((batchDedup ["id"]
          [[("id", Value.int 5), ("v", Value.str "a")],
           [("id", Value.int 5), ("v", Value.str "b")]]).countP
        (fun r => decide (Row.proj r ["id"] = [("id", Value.int 5)])) ≤ 1
       ∧ ∀ r ∈ batchDedup ["id"]
            [[("id", Value.int 5), ("v", Value.str "a")],
             [("id", Value.int 5), ("v", Value.str "b")]],
          List.find? (fun s => decide (Row.proj s ["id"] = Row.proj r ["id"]))
            [[("id", Value.int 5), ("v", Value.str "a")],
             [("id", Value.int 5), ("v", Value.str "b")]] = some r) :=
  ⟨by decide, drop_redundant_batch_dedup_first ["id"]
    [[("id", Value.int 5), ("v", Value.str "a")],
     [("id", Value.int 5), ("v", Value.str "b")]] (by decide) [("id", Value.int 5)]⟩

/-- Digest of the C1 scenario: row A (values "A", 1) hashes to "x1" and row
B (values "B", 2) hashes to "y1". -/
def c1Digest : String → String := fun s => if s == "A1" then "x1" else "y1"

/-- Snapshot directory of the C1 scenario: the hash snapshot already holds
{id A, hash x1}. -/
def c1Fs : FS :=
  [("d/s.hash.snapshot.csv", [[("id", Value.str "A"), ("hash", Value.str "x1")]])]

/-- C1 (code bug): in the spec's concrete scenario — snapshot {id A, hash
x1}, batch rows A and B hashing to "x1" and "y1", pk ["id"], default
updated_flag — the code raises UnboundLocalError at line 284
(`df.merge(updated_pk, ...)` with `updated_pk` never assigned, because the
assignment at lines 275-277 is guarded by `updated_flag`) instead of
returning the filtered batch [{id B, val 2}]; the snapshot file is left
unchanged rather than rewritten. -/
theorem drop_redundant_concrete_scenario_raises :
    get_row_hash c1Digest [("id", Value.str "A"), ("val", Value.int 1)] = "x1"
    ∧ get_row_hash c1Digest [("id", Value.str "B"), ("val", Value.int 2)] = "y1"
    ∧ drop_redundant c1Digest
        [[("id", Value.str "A"), ("val", Value.int 1)],
         [("id", Value.str "B"), ("val", Value.int 2)]]
        "s" "d" (.ofList ["id"]) false c1Fs
      = (.error .unboundLocal, c1Fs) := by decide

/-- C2 (code bug): running `drop_redundant` twice in succession with the same
batch and default flags: the first call (no snapshot yet) keeps the whole
batch and creates the hash snapshot, and the second call — for which every
(pk, hash) pair is already in the snapshot — raises UnboundLocalError at
line 284 instead of returning an empty dataframe, because with the default
`updated_flag=False` the variable `updated_pk` is never assigned while line
284 still reads it. -/
theorem drop_redundant_second_run_raises :
    (drop_redundant (fun s => s) [[("id", Value.int 1), ("v", Value.str "a")]]
        "s" "d" (.ofList ["id"]) false []).1
      = .ok [[("id", Value.int 1), ("v", Value.str "a")]]
    ∧ (drop_redundant (fun s => s) [[("id", Value.int 1), ("v", Value.str "a")]]
        "s" "d" (.ofList ["id"]) false
        (drop_redundant (fun s => s) [[("id", Value.int 1), ("v", Value.str "a")]]
          "s" "d" (.ofList ["id"]) false []).2).1
      = .error .unboundLocal := by decide

/-- C10: with a string pk, `pk` is normalized to a list only inside the
snapshot-file-exists branch, so when no hash snapshot file exists the
projection `df[pk + ["hash"]]` at line 286 concatenates a string with a list
and raises TypeError: the first-ever run for a stream with a string pk
always fails, whatever the batch and flags. -/
theorem drop_redundant_string_pk_first_run_raises (digest : String → String)
    (df0 : List Row) (name outputDir s : String) (updatedFlag : Bool) (fs : FS)
    (hfile : FS.lookup fs (hashSnapshotPath outputDir name) = none) :
    drop_redundant digest df0 name outputDir (.ofStr s) updatedFlag fs
      = (.error .typeError, fs) := by
  unfold drop_redundant drop_redundant_heap
  rw [hfile]

/-- Witness for C10: first run with pk given as the plain string "id". -/
theorem drop_redundant_string_pk_first_run_raises_witness :
    FS.lookup ([] : FS) (hashSnapshotPath "d" "s") = none
    ∧ drop_redundant (fun t => t) [[("id", Value.int 1)]] "s" "d" (.ofStr "id")
        false [] = (.error .typeError, []) :=
  ⟨by decide, drop_redundant_string_pk_first_run_raises (fun t => t)
    [[("id", Value.int 1)]] "s" "d" "id" false [] (by decide)⟩

/-- C9: `drop_redundant` never mutates the caller's dataframe: the contents
of the caller's frame object are the same after the call, whether it returns
or raises, on every control path — the local `df` is rebound to a copy at
line 259 before the only in-place writes (the hash column assignment, the
`_updated` column assignment), which therefore hit owned copies only. -/
theorem drop_redundant_preserves_caller (digest : String → String) (h0 : Frame)
    (name outputDir : String) (pk : PkArg) (updatedFlag : Bool) (fs : FS) :
    (drop_redundant_heap digest h0 name outputDir pk updatedFlag fs).1 = h0 := by
  unfold drop_redundant_heap
  cases FS.lookup fs (hashSnapshotPath outputDir name) with
  | none => cases pk <;> rfl
  | some snap =>
    by_cases hf : (updatedFlag && !(PkArg.norm pk).isEmpty) = true
    · simp only [hf, if_true]
      split <;> rfl
    · simp only [hf, if_false]
      rfl

/-- Lines 259-265 of `drop_redundant` applied to the caller's frame: the
batch with its default RangeIndex, deduplicated by pk when pk is truthy,
with the hash column set on every row. -/
def hashedBatch (digest : String → String) (pk : PkArg) (df0 : List Row) : Frame :=
  (if pk.truthy then dedupKeep (fun p => Row.proj p.2 pk.norm) df0.enum
   else df0.enum).map
    (fun p => (p.1, Row.setCol p.2 "hash" (.str (get_row_hash digest p.2))))

/-- The (pk, hash) projection `df[pk + ["hash"]]` that the first run for a
stream persists: one row per retained batch row, carrying its pk values and
its freshly computed hash. -/
def firstRunSnapshot (digest : String → String) (pkL : List String)
    (df0 : List Row) : List Row :=
  (batchDedup pkL df0).map (fun r =>
    Row.proj (Row.setCol r "hash" (.str (get_row_hash digest r))) (pkL ++ ["hash"]))

/-- Shape of the no-snapshot-file branch of `drop_redundant` for a list pk:
the hashed deduplicated batch is projected to (pk, hash) and handed to
`snapshot_records`, and is returned with the hash column dropped. -/
theorem drop_redundant_no_file_list_pk (digest : String → String) (df0 : List Row)
    (name outputDir : String) (pkL : List String) (updatedFlag : Bool) (fs : FS)
    (hfile : FS.lookup fs (hashSnapshotPath outputDir name) = none) :
    drop_redundant digest df0 name outputDir (.ofList pkL) updatedFlag fs
      = (.ok ((hashedBatch digest (.ofList pkL) df0).map
            (fun p => Row.dropCol p.2 "hash")),
         (snapshot_records
             (some ((hashedBatch digest (.ofList pkL) df0).map
               (fun p => Row.proj p.2 (pkL ++ ["hash"]))))
             (name ++ ".hash") outputDir pkL false fs).2) := by
  unfold drop_redundant drop_redundant_heap hashedBatch
  rw [hfile]
  rfl

theorem batchDedup_frame (pkL : List String) (df0 : List Row) :
    (if (PkArg.ofList pkL).truthy
        then dedupKeep (fun p => Row.proj p.2 (PkArg.ofList pkL).norm) df0.enum
        else df0.enum).map Prod.snd
      = batchDedup pkL df0 := by
  cases he : pkL.isEmpty with
  | true =>
    have ht : (PkArg.ofList pkL).truthy = false := by simp [PkArg.truthy, he]
    unfold batchDedup
    simp [ht, he, List.enum_map_snd]
  | false =>
    have ht : (PkArg.ofList pkL).truthy = true := by simp [PkArg.truthy, he]
    unfold batchDedup dedupKeep
    simp only [ht, if_true, he, Bool.false_eq_true, if_false, PkArg.norm]
    rw [show (fun p : Nat × Row => Row.proj p.2 pkL)
        = (fun x : Nat × Row => (fun r => Row.proj r pkL) (Prod.snd x)) from rfl]
    rw [map_dedupKeepAux Prod.snd (fun r => Row.proj r pkL) [] df0.enum,
      List.enum_map_snd]

theorem hashedBatch_map_snd (digest : String → String) (pkL : List String)
    (df0 : List Row) :
    (hashedBatch digest (.ofList pkL) df0).map Prod.snd
      = (batchDedup pkL df0).map
          (fun r => Row.setCol r "hash" (.str (get_row_hash digest r))) := by
  unfold hashedBatch
  rw [List.map_map, show (Prod.snd ∘ fun p : Nat × Row =>
      (p.1, Row.setCol p.2 "hash" (.str (get_row_hash digest p.2))))
      = (fun r => Row.setCol r "hash" (.str (get_row_hash digest r))) ∘ Prod.snd
      from rfl,
    ← List.map_map, batchDedup_frame]

theorem mem_batchDedup {pkL : List String} {df0 : List Row} {r : Row}
    (h : r ∈ batchDedup pkL df0) : r ∈ df0 := by
  unfold batchDedup at h
  split at h
  · exact h
  · exact mem_of_mem_dedupKeepAux h

theorem any_key_false_of_get_none {r : Row} {c : String}
    (h : Row.get r c = none) : r.any (fun kv => kv.1 == c) = false := by
  unfold Row.get at h
  rw [Option.map_eq_none'] at h
  rw [List.find?_eq_none] at h
  rw [List.any_eq_false]
  intro kv hkv
  exact h kv hkv

theorem dropCol_setCol_of_get_none {r : Row} {c : String}
    (h : Row.get r c = none) (v : Value) :
    Row.dropCol (Row.setCol r c v) c = r := by
  have ha := any_key_false_of_get_none h
  unfold Row.setCol Row.dropCol
  rw [ha]
  simp only [Bool.false_eq_true, if_false, List.filter_append]
  have h1 : r.filter (fun kv => !(kv.1 == c)) = r := by
    rw [List.filter_eq_self]
    intro kv hkv
    rw [List.any_eq_false] at ha
    simpa using ha kv hkv
  rw [h1]
  simp

/-- C4 (amended: the batch must not already carry a column named "hash",
which line 265 would overwrite and line 287 drop): if no hash snapshot file
exists for the stream, `drop_redundant` returns every row of the batch
unchanged after batch-internal pk dedup, and creates a snapshot containing
exactly one (pk, hash) row per retained input row. -/
theorem drop_redundant_no_snapshot_all_new (digest : String → String)
    (df0 : List Row) (name outputDir : String) (pkL : List String) (fs : FS)
    (hfile : FS.lookup fs (hashSnapshotPath outputDir name) = none)
    (_hne : df0 ≠ [])
    (hnohash : ∀ r ∈ df0, Row.get r "hash" = none) :
    drop_redundant digest df0 name outputDir (.ofList pkL) false fs
      = (.ok (batchDedup pkL df0),
         FS.store fs (hashSnapshotPath outputDir name)
           (firstRunSnapshot digest pkL df0))
    ∧ (firstRunSnapshot digest pkL df0).length = (batchDedup pkL df0).length := by
  have hrows : (hashedBatch digest (.ofList pkL) df0).map
      (fun p => Row.dropCol p.2 "hash") = batchDedup pkL df0 := by
    rw [show (fun p : Nat × Row => Row.dropCol p.2 "hash")
        = (fun r => Row.dropCol r "hash") ∘ Prod.snd from rfl,
      ← List.map_map, hashedBatch_map_snd, List.map_map]
    have hid : ∀ r ∈ batchDedup pkL df0,
        ((fun r => Row.dropCol r "hash")
          ∘ fun r => Row.setCol r "hash" (.str (get_row_hash digest r))) r = r := by
      intro r hr
      exact dropCol_setCol_of_get_none (hnohash r (mem_batchDedup hr)) _
    rw [List.map_congr_left hid, List.map_id']
  have hsnap : (hashedBatch digest (.ofList pkL) df0).map
      (fun p => Row.proj p.2 (pkL ++ ["hash"])) = firstRunSnapshot digest pkL df0 := by
    rw [show (fun p : Nat × Row => Row.proj p.2 (pkL ++ ["hash"]))
        = (fun r => Row.proj r (pkL ++ ["hash"])) ∘ Prod.snd from rfl,
      ← List.map_map, hashedBatch_map_snd, List.map_map]
    rfl
  have hsr := snapshot_records_no_snapshot (firstRunSnapshot digest pkL df0)
    (name ++ ".hash") outputDir pkL false fs
    (by rw [snapshotPath_hash]; exact hfile)
  constructor
  · rw [drop_redundant_no_file_list_pk digest df0 name outputDir pkL false fs hfile,
      hrows, hsnap, hsr, snapshotPath_hash]
  · unfold firstRunSnapshot
    rw [List.length_map]

/-- Counterexample to C4 as stated: when the batch already carries a column
named "hash", line 265 overwrites it and line 287 drops it, so the rows are
not returned unchanged even though no pk duplicate exists. -/
theorem drop_redundant_no_snapshot_counterexample :
    FS.lookup ([] : FS) (hashSnapshotPath "d" "s") = none
    ∧ (drop_redundant (fun s => s)
        [[("id", Value.int 1), ("hash", Value.str "z")]]
        "s" "d" (.ofList ["id"]) false []).1 = .ok [[("id", Value.int 1)]]
    ∧ ([[("id", Value.int 1)]] : List Row)
        ≠ [[("id", Value.int 1), ("hash", Value.str "z")]] := by decide

/-- Witness for the amended C4 at a concrete one-row batch without a hash
column. -/
theorem drop_redundant_no_snapshot_all_new_witness :
    FS.lookup ([] : FS) (hashSnapshotPath "d" "s") = none
    ∧ ([[("id", Value.int 1), ("v", Value.str "a")]] : List Row) ≠ []
    ∧ (∀ r ∈ ([[("id", Value.int 1), ("v", Value.str "a")]] : List Row),
        Row.get r "hash" = none)
    ∧ (drop_redundant (fun t => t) [[("id", Value.int 1), ("v", Value.str "a")]]
          "s" "d" (.ofList ["id"]) false []
        = (.ok (batchDedup ["id"] [[("id", Value.int 1), ("v", Value.str "a")]]),
           FS.store [] (hashSnapshotPath "d" "s")
             (firstRunSnapshot (fun t => t) ["id"]
               [[("id", Value.int 1), ("v", Value.str "a")]]))
       ∧ (firstRunSnapshot (fun t => t) ["id"]
            [[("id", Value.int 1), ("v", Value.str "a")]]).length
          = (batchDedup ["id"] [[("id", Value.int 1), ("v", Value.str "a")]]).length) :=
  ⟨by decide, by decide, by decide,
    drop_redundant_no_snapshot_all_new (fun t => t)
      [[("id", Value.int 1), ("v", Value.str "a")]] "s" "d" ["id"] []
      (by decide) (by decide) (by decide)⟩

end Gluestick
